import Mathlib

/-!
Shallow embedding of the TerraNova Financing Schedule & Subordinated
Cash-Waterfall Engine.

Sources embedded here:
* `src/baselines/TerraNova_M3_FinancingEngine_v3.1.0/src/terra_nova/modules/m3_financing/engine.py`
  (`_annuity_payment`, `create_loan_schedule`, `_create_revolver_schedule`,
  `_create_insurance_schedule`, `create_financing_schedules`);
* `src/modules/m7_5b_rebuild/runner.py` (the subordination / cash-waterfall
  block, lines 302-361 of `run_m7_5b`).

Python floats are modelled as exact rationals (ℚ), Python ints as ℤ.
Pandas tables keyed on a contiguous `Month_Index` 1..horizon are modelled by
the natural number `horizon`; a row of such a table is a function from column
names to values.  Python scalar values that can sit in a cell are modelled by
`PyVal` (a number, a string, or `None`); `float(...)` and `int(...)` on those
values are modelled by `pyFloatE` / `pyIntE`, with plain decimal literals
supported by the string parsers below (exponent forms, underscores, `inf` and
`nan` are not modelled).
-/

deriving instance DecidableEq for Except

set_option allowUnsafeReducibility true in
attribute [semireducible] Rat.add Rat.sub Rat.mul Rat.inv Rat.ofScientific

/-- A Python scalar value stored in a table cell: a number (int or float,
modelled exactly as a rational), a string, or `None`. -/
inductive PyVal where
  | vNum : ℚ → PyVal
  | vStr : String → PyVal
  | vNone : PyVal
deriving DecidableEq

/-- Numeric value of a list of decimal digit characters. -/
def digitsToNat (cs : List Char) : ℕ :=
  cs.foldl (fun a c => 10 * a + (c.toNat - 48)) 0

/-- Whether a non-empty character list consists only of decimal digits. -/
def isDigits (cs : List Char) : Bool :=
  !cs.isEmpty && cs.all (fun c => c.isDigit)

/-- Whitespace for the purposes of Python strips and numeric literals. -/
def isSpaceChar (c : Char) : Bool :=
  c = ' ' || c = '\t' || c = '\n' || c = '\r'

/-- Strip whitespace from both ends of a character list (Python `str.strip`,
and the whitespace tolerance of `float(...)` / `int(...)` on strings). -/
def stripChars (cs : List Char) : List Char :=
  ((cs.dropWhile isSpaceChar).reverse.dropWhile isSpaceChar).reverse

/-- Split an optional leading sign off a character list, returning the sign
and the remaining body. -/
def splitSign (cs : List Char) : ℤ × List Char :=
  match cs with
  | '-' :: rest => (-1, rest)
  | '+' :: rest => (1, rest)
  | _ => (1, cs)

/-- Split a character list on the dot character. -/
def splitDot : List Char → List (List Char)
  | [] => [[]]
  | c :: rest =>
    match splitDot rest with
    | [] => [[]]
    | h :: t => if c = '.' then [] :: h :: t else (c :: h) :: t

/-- Model of Python `float(s)` on a string: accepts optionally signed plain
decimal literals such as "12", "3.5", "12." and ".5" (surrounding whitespace
stripped), returns `none` (Python: raises `ValueError`) otherwise.  Exponent
forms, underscores, `inf` and `nan` are not modelled. -/
def parseFloat? (s : String) : Option ℚ :=
  let t := stripChars s.data
  let sg : ℚ := ((splitSign t).1 : ℚ)
  let body := (splitSign t).2
  match splitDot body with
  | [a] => if isDigits a then some (sg * (digitsToNat a : ℚ)) else none
  | [a, b] =>
      if (a.all (fun c => c.isDigit)) && (b.all (fun c => c.isDigit))
          && (!(a.isEmpty && b.isEmpty)) then
        some (sg * ((digitsToNat a : ℚ) + (digitsToNat b : ℚ) / (10 : ℚ) ^ b.length))
      else none
  | _ => none

/-- Model of Python `int(s)` on a string: accepts optionally signed integer
literals only (whitespace stripped); `int("3.5")` raises, hence `none`. -/
def parseInt? (s : String) : Option ℤ :=
  let t := stripChars s.data
  if isDigits (splitSign t).2 then
    some ((splitSign t).1 * (digitsToNat (splitSign t).2 : ℤ))
  else none

/-- Lowercase one character (ASCII, which covers the policy strings). -/
def lowerChar (c : Char) : Char :=
  if 'A' ≤ c ∧ c ≤ 'Z' then Char.ofNat (c.toNat + 32) else c

/-- Model of Python `.strip().lower()` applied to the policy string
(engine.py line 59). -/
def stripLower (s : String) : String :=
  ⟨(stripChars s.data).map lowerChar⟩

/-- Truncation toward zero, the behaviour of Python `int()` on a float. -/
def truncQ (q : ℚ) : ℤ := if 0 ≤ q then ⌊q⌋ else ⌈q⌉

/-- Model of Python `float(v)` on a scalar cell value; `.error ()` models a
raised `ValueError`/`TypeError`. -/
def pyFloatE : PyVal → Except Unit ℚ
  | .vNum q => .ok q
  | .vStr s => match parseFloat? s with
               | some q => .ok q
               | none => .error ()
  | .vNone => .error ()

/-- Model of Python `int(v)` on a scalar cell value; `.error ()` models a
raised `ValueError`/`TypeError`. -/
def pyIntE : PyVal → Except Unit ℤ
  | .vNum q => .ok (truncQ q)
  | .vStr s => match parseInt? s with
               | some n => .ok n
               | none => .error ()
  | .vNone => .error ()

/-- Model of Python `str(v)` on a scalar cell value.  For numbers the exact
textual rendering differs from CPython, but any rendering of a number is a
non-policy string, which is all the engine ever depends on. -/
def pyStr : PyVal → String
  | .vNum q => toString q
  | .vStr s => s
  | .vNone => "None"

/-- Model of Python truthiness for the scalar cell values we model. -/
def pyTruthy : PyVal → Bool
  | .vNum q => q ≠ 0
  | .vStr s => s ≠ ""
  | .vNone => false

/-- Model of the idiom `v or 0` used in `create_financing_schedules`. -/
def orZero (v : PyVal) : PyVal := if pyTruthy v then v else .vNum 0

/-- A pandas `Series` of loan parameters: a partial map from field names to
scalar values (`none` models an absent label, for which `Series.get` returns
its default). -/
def LoanRow : Type := String → Option PyVal

/-- Pointwise update of a row at one field name. -/
def updateRow (row : LoanRow) (name : String) (v : PyVal) : LoanRow :=
  fun n => if n = name then some v else row n

/-- Model of the engine's `_fval` helper (engine.py lines 44-49): coerce a
field to float, degrading to the default on any failure.  Never raises. -/
def fval (row : LoanRow) (name : String) (default : ℚ) : ℚ :=
  match row name with
  | none => default
  | some v => match pyFloatE v with
              | .ok q => q
              | .error _ => default

/-- Model of the engine's `_ival` helper (engine.py lines 37-42): try
`int(v)`; on failure fall back to `int(float(v))` unless the value is `None`
or the empty string, which give the default.  A non-numeric, non-empty string
makes the fallback itself raise `ValueError`, modelled by `.error ()`. -/
def ival (row : LoanRow) (name : String) (default : ℤ) : Except Unit ℤ :=
  match row name with
  | none => .ok default
  | some v =>
    match pyIntE v with
    | .ok n => .ok n
    | .error _ =>
      if v = PyVal.vNone ∨ v = PyVal.vStr "" then .ok default
      else match pyFloatE v with
           | .ok q => .ok (truncQ q)
           | .error _ => .error ()

/-- The sanitized parameters `create_loan_schedule` extracts from a row
(engine.py lines 51-59): clamped tenor/draw-window/grace integers, raw
principal and rate, and the normalized (stripped, lowercased) policy
string. -/
structure SanParams where
  principal : ℚ
  ratePct : ℚ
  tenor : ℤ
  drawStart : ℤ
  drawEnd : ℤ
  gracePrin : ℤ
  amortType : String
deriving DecidableEq

/-- Parameter extraction and sanitization of `create_loan_schedule`
(engine.py lines 51-59), the only part of the function that can raise;
`horizon` is the calendar length (`Month_Index` 1..horizon). -/
def sanitize (row : LoanRow) (horizon : ℕ) : Except Unit SanParams :=
  match ival row "Tenor_Months" (horizon : ℤ) with
  | .error e => .error e
  | .ok tenorI =>
    match ival row "Draw_Start_M" 1 with
    | .error e => .error e
    | .ok ds0 =>
      match ival row "Draw_End_M" (max ds0 1) with
      | .error e => .error e
      | .ok deRaw =>
        match ival row "Grace_Principal_M" 0 with
        | .error e => .error e
        | .ok g0 =>
          .ok ⟨fval row "Principal" 0, fval row "Rate_Pct" 0,
               max tenorI 0, max ds0 1,
               max 0 (min (min deRaw (max tenorI 0)) (horizon : ℤ)), max g0 0,
               stripLower (pyStr ((row "Amort_Type").getD (.vStr "annuity")))⟩

/-- Monthly rate `r_m = rate_pct / 100.0 / 12.0` (engine.py line 61). -/
def rM (p : SanParams) : ℚ := p.ratePct / 100 / 12

/-- Number of months in the draw window (engine.py line 64). -/
def drawMonths (p : SanParams) : ℤ :=
  if p.drawEnd ≥ p.drawStart then max 0 (p.drawEnd - p.drawStart + 1) else 0

/-- Equal monthly draw over the draw window (engine.py line 65). -/
def monthlyDraw (p : SanParams) : ℚ :=
  if 0 < drawMonths p then p.principal / (drawMonths p : ℚ) else 0

/-- First month of the amortization window (engine.py line 68). -/
def amortStart (p : SanParams) : ℤ := min (p.drawEnd + p.gracePrin + 1) p.tenor

/-- Length of the amortization window (engine.py line 69). -/
def amortNper (p : SanParams) : ℤ := max (p.tenor - amortStart p + 1) 0

/-- Drawdown in month `m` (engine.py line 90). -/
def drawAt (p : SanParams) (m : ℤ) : ℚ :=
  if 0 < drawMonths p ∧ p.drawStart ≤ m ∧ m ≤ p.drawEnd then monthlyDraw p else 0

/-- Balance after month `m` ignoring repayments; before the amortization
window begins no repayment occurs, so this is the loop's closing balance
there, and in particular the balance from which the annuity payment is
seeded. -/
def preBal (p : SanParams) : ℕ → ℚ
  | 0 => 0
  | k + 1 => preBal p k + drawAt p ((k : ℤ) + 1)

/-- The balance at the start of the amortization window
(`pv_at_amort_start`, engine.py lines 98-99): the opening balance of month
`amort_start`, i.e. the closing balance of the month before. -/
def pv (p : SanParams) : ℚ := preBal p (amortStart p - 1).toNat

/-- Deterministic annuity payment `_annuity_payment` (engine.py lines 10-19);
`(1+r) ** (-periods)` is integer zpow on ℚ. -/
def annuityPayment (principal r : ℚ) (periods : ℤ) : ℚ :=
  if periods ≤ 0 then principal
  else if |r| < 1 / 10 ^ 12 then principal / (periods : ℚ)
  else principal * r / (1 - (1 + r) ^ (-periods))

/-- The level annuity payment seeded at the start of the amortization window
(engine.py lines 101-102). -/
def annuityPmt (p : SanParams) : ℚ := annuityPayment (pv p) (rM p) (amortNper p)

/-- The equal principal installment of the `straight` policy (engine.py
lines 108-109). -/
def straightPrin (p : SanParams) : ℚ :=
  if 0 < amortNper p then pv p / (amortNper p : ℚ) else 0

/-- Interest accrued in month `m` on the opening balance (engine.py
line 93). -/
def interestAt (p : SanParams) (m : ℤ) (opening : ℚ) : ℚ :=
  if 1 ≤ m ∧ m ≤ p.tenor then opening * rM p else 0

/-- Principal repayment in month `m` given the opening balance (engine.py
lines 95-121): zero outside the amortization window; inside it the policy
dispatch on the normalized `Amort_Type` string, with the final tenor month
always plugged to `max(0, opening + draw)` and unknown policies falling
through to the annuity branch. -/
def repayAt (p : SanParams) (m : ℤ) (opening : ℚ) : ℚ :=
  if 0 < amortNper p ∧ amortStart p ≤ m ∧ m ≤ p.tenor then
    if p.amortType = "annuity" then
      if m = p.tenor then max 0 (opening + drawAt p m)
      else max 0 (annuityPmt p - interestAt p m opening)
    else if p.amortType = "straight" then
      if m = p.tenor then max 0 (opening + drawAt p m)
      else straightPrin p
    else if p.amortType = "bullet" then
      if m < p.tenor then 0 else max 0 (opening + drawAt p m)
    else
      if m = p.tenor then max 0 (opening + drawAt p m)
      else max 0 (annuityPmt p - interestAt p m opening)
  else 0

/-- Closing balance after month `m` of the schedule loop (engine.py
lines 85-129): month `m`'s opening balance is month `m-1`'s closing balance,
and `closing = opening + draw - repay`. -/
def closingBal (p : SanParams) : ℕ → ℚ
  | 0 => 0
  | k + 1 =>
      closingBal p k + drawAt p ((k : ℤ) + 1)
        - repayAt p ((k : ℤ) + 1) (closingBal p k)

/-- One row of an amortization schedule. -/
structure SchedRow where
  opening : ℚ
  draw : ℚ
  interest : ℚ
  repay : ℚ
  closing : ℚ
deriving DecidableEq

/-- Row of the loan schedule for month `m ≥ 1` (engine.py lines 85-129). -/
def schedRow (p : SanParams) (m : ℕ) : SchedRow :=
  let o := closingBal p (m - 1)
  { opening := o
    draw := drawAt p (m : ℤ)
    interest := interestAt p (m : ℤ) o
    repay := repayAt p (m : ℤ) o
    closing := o + drawAt p (m : ℤ) - repayAt p (m : ℤ) o }

/-- Model of `create_loan_schedule` (engine.py lines 24-131): extract and
sanitize the parameters (the only fallible part), then produce the schedule
rows; row `m` of the result is meaningful for `1 ≤ m ≤ horizon`. -/
def create_loan_schedule (row : LoanRow) (horizon : ℕ) :
    Except Unit (ℕ → SchedRow) :=
  (sanitize row horizon).map (fun p m => schedRow p m)

/-- One row of a revolver cost schedule (engine.py lines 149-161). -/
structure RevRow where
  month : ℤ
  lineId : ℤ
  ccy : String
  opening : ℚ
  draw : ℚ
  repay : ℚ
  interest : ℚ
  closing : ℚ
deriving DecidableEq

/-- Row of the revolver schedule (engine.py lines 149-159): balances, draws
and repayments stay zero; interest accrues at the fixed 50% utilization of
the stated principal for months in `[Draw_Start_M, Tenor_Months]`. -/
def revolverRow (lineId : ℤ) (ccy : String) (principal rMv : ℚ)
    (tenor ds m : ℤ) : RevRow :=
  { month := m
    lineId := lineId
    ccy := ccy
    opening := 0
    draw := 0
    repay := 0
    interest := if ds ≤ m ∧ m ≤ tenor then 1 / 2 * principal * rMv else 0
    closing := 0 }

/-- One row of the insurance stub schedule (engine.py lines 165-189). -/
structure InsRow where
  month : ℤ
  lineId : ℤ
  ccy : String
  premium : ℚ
  expense : ℚ
  prepaidBOP : ℚ
  prepaidEOP : ℚ
deriving DecidableEq

/-- Errors `create_financing_schedules` can raise: the two schema-guard
`KeyError`s and the missing-active-case `KeyError` (engine.py lines 206-215),
a missing column indexed directly by a row builder, and a `ValueError` /
`TypeError` from a numeric coercion inside a schedule builder. -/
inductive M3Err where
  | missingStackCols
  | missingSelectorKV
  | missingCaseRow
  | missingField
  | badValue
deriving DecidableEq

/-- The instrument catalog (`Finance_Stack`): its column names and its rows;
a row assigns a scalar value to every column name. -/
structure FinStack where
  cols : List String
  rows : List (String → PyVal)

/-- The case selector table: its column names and its (Key, Value) pairs. -/
structure Selector where
  cols : List String
  rows : List (String × String)

/-- Required `Finance_Stack` columns (engine.py lines 203-205). -/
def reqCols : List String :=
  ["Case_Name", "Line_ID", "Instrument", "Currency", "Principal", "Rate_Pct",
   "Tenor_Months", "Draw_Start_M", "Draw_End_M", "Grace_Int_M",
   "Grace_Principal_M", "Amort_Type", "Balloon_Pct", "Revolving",
   "Is_Insurance", "Premium_Rate_Pct", "Secured_By", "Active"]

/-- Model of pandas `row[name]`: a `KeyError` if the column is absent. -/
def rowIndexE (cols : List String) (r : String → PyVal) (name : String) :
    Except M3Err PyVal :=
  if cols.contains name then .ok (r name) else .error .missingField

/-- Model of pandas `Series.get(name, default)`. -/
def seriesGet (cols : List String) (r : String → PyVal) (name : String)
    (default : PyVal) : PyVal :=
  if cols.contains name then r name else default

/-- Pandas elementwise `== "s"` on a cell: true only for an equal string. -/
def pyEqStr (v : PyVal) (s : String) : Bool :=
  match v with
  | .vStr t => t = s
  | _ => false

/-- Pandas elementwise `== q` on a cell: true only for an equal number. -/
def pyEqNum (v : PyVal) (q : ℚ) : Bool :=
  match v with
  | .vNum x => x = q
  | _ => false

/-- Model of `_create_revolver_schedule` (engine.py lines 136-161). -/
def createRevolverSchedule (cols : List String) (r : String → PyVal)
    (horizon : ℕ) : Except M3Err (List RevRow) := do
  let principal ← (pyFloatE (← rowIndexE cols r "Principal")).mapError
      (fun _ => M3Err.badValue)
  let ratePct ← (pyFloatE (← rowIndexE cols r "Rate_Pct")).mapError
      (fun _ => M3Err.badValue)
  let tenor ← (pyIntE (← rowIndexE cols r "Tenor_Months")).mapError
      (fun _ => M3Err.badValue)
  let ds ← (pyIntE (← rowIndexE cols r "Draw_Start_M")).mapError
      (fun _ => M3Err.badValue)
  let lineId ← (pyIntE (← rowIndexE cols r "Line_ID")).mapError
      (fun _ => M3Err.badValue)
  let ccy := pyStr (← rowIndexE cols r "Currency")
  pure ((List.range horizon).map
    (fun i => revolverRow lineId ccy principal (ratePct / 100 / 12) tenor ds ((i : ℤ) + 1)))

/-- Model of `_create_insurance_schedule` (engine.py lines 165-189): an
all-zero premium/expense/prepaid schedule over the calendar. -/
def createInsuranceSchedule (cols : List String) (r : String → PyVal)
    (horizon : ℕ) : Except M3Err (List InsRow) := do
  let lineId ← (pyIntE (← rowIndexE cols r "Line_ID")).mapError
      (fun _ => M3Err.badValue)
  let ccy := pyStr (← rowIndexE cols r "Currency")
  pure ((List.range horizon).map
    (fun i => ⟨(i : ℤ) + 1, lineId, ccy, 0, 0, 0, 0⟩))

/-- Compact index row of a processed instrument (engine.py line 242). -/
structure IndexRow where
  caseName : PyVal
  lineId : PyVal
  instrument : PyVal
  revolving : PyVal
  isInsurance : PyVal
  ccy : PyVal

/-- The three artifacts returned by `create_financing_schedules`. -/
structure M3Artifacts where
  revolver : List RevRow
  insurance : List InsRow
  indexRows : List IndexRow

/-- Per-row dispatch of `create_financing_schedules` (engine.py
lines 226-233): insurance rows and revolving rows produce schedules, and a
standard loan row runs `create_loan_schedule` whose result is discarded but
whose exceptions propagate. -/
def processRow (cols : List String) (horizon : ℕ) (r : String → PyVal) :
    Except M3Err (List RevRow × List InsRow) := do
  let ins ← (pyIntE (orZero (seriesGet cols r "Is_Insurance" (.vNum 0)))).mapError
      (fun _ => M3Err.badValue)
  if ins = 1 then
    let s ← createInsuranceSchedule cols r horizon
    pure ([], s)
  else
    let rev ← (pyIntE (orZero (seriesGet cols r "Revolving" (.vNum 0)))).mapError
        (fun _ => M3Err.badValue)
    if rev = 1 then
      let s ← createRevolverSchedule cols r horizon
      pure (s, [])
    else
      let _ ← (sanitize (fun name => if cols.contains name then some (r name) else none)
          horizon).mapError (fun _ => M3Err.badValue)
      pure ([], [])

/-- Model of `create_financing_schedules` (engine.py lines 192-244): schema
guards, active-case lookup, filtering to the active case's active rows, and
the per-instrument dispatch. -/
def create_financing_schedules (stack : FinStack) (selector : Selector)
    (horizon : ℕ) : Except M3Err M3Artifacts :=
  if (reqCols.filter (fun c => !stack.cols.contains c)) ≠ [] then
    .error .missingStackCols
  else if !(selector.cols.contains "Key" && selector.cols.contains "Value") then
    .error .missingSelectorKV
  else
    match selector.rows.filter (fun kv => kv.1 = "PFinance_Case") with
    | [] => .error .missingCaseRow
    | (_, activeCase) :: _ =>
      let rows : List (String → PyVal) := stack.rows.filter
        (fun r => pyEqStr (r "Case_Name") activeCase && pyEqNum (r "Active") 1)
      (rows.foldlM
        (fun (acc : List RevRow × List InsRow) (r : String → PyVal) => do
          let pr ← processRow stack.cols horizon r
          pure (acc.1 ++ pr.1, acc.2 ++ pr.2)) ([], [])).map
        (fun (pr : List RevRow × List InsRow) =>
          { revolver := pr.1
            insurance := pr.2
            indexRows := rows.map (fun (r : String → PyVal) =>
              ⟨r "Case_Name", r "Line_ID", r "Instrument", r "Revolving",
               r "Is_Insurance", r "Currency"⟩) })

/-- Cash available to junior claims in one period (runner.py line 302):
`max(0, CFO - senior_service - tax_paid)`. -/
def availableW (cfo senior tax : ℚ) : ℚ := max 0 (cfo - senior - tax)

/-- Junior cash actually paid out in one period (runner.py line 306):
`min(scheduled, available)`. -/
def actualOutW (sched avail : ℚ) : ℚ := min sched avail

/-- Unpaid scheduled junior outflow of one period (runner.py line 307). -/
def unpaidW (sched avail : ℚ) : ℚ := sched - actualOutW sched avail

/-- Running cumulative sum, the model of `np.cumsum` over the month axis. -/
def cumsum (f : ℕ → ℚ) : ℕ → ℚ
  | 0 => f 0
  | t + 1 => cumsum f t + f (t + 1)

/-- End-of-period payable liability (runner.py lines 305-329):
`np.cumsum(sched_out - actual_out)` with availability computed from CFO,
senior service and tax paid. -/
def payableEop (cfo senior tax sched : ℕ → ℚ) : ℕ → ℚ :=
  cumsum (fun t =>
    unpaidW (sched t) (availableW (cfo t) (senior t) (tax t)))

/-- Junior financing cash-flow effect of one period (runner.py line 310). -/
def cffW (jin sched avail : ℚ) : ℚ := jin - actualOutW sched avail

/-- Rebuilt cash balance (runner.py lines 323-324): baseline cash plus the
cumulative junior CFF delta. -/
def cashRebuilt (cashBase cff : ℕ → ℚ) (t : ℕ) : ℚ :=
  cashBase t + cumsum cff t

/-- Non-cash baseline assets (runner.py line 347). -/
def otherAssets (m6atot cashBase : ℕ → ℚ) (t : ℕ) : ℚ :=
  m6atot t - cashBase t

/-- Rebuilt total assets (runner.py line 348). -/
def assetsTotalR (m6atot cashBase cff : ℕ → ℚ) (t : ℕ) : ℚ :=
  otherAssets m6atot cashBase t + cashRebuilt cashBase cff t

/-- Rebuilt liabilities-and-equity total (runner.py lines 351-352):
assigned as a copy of the rebuilt assets total. -/
def leTotalR (m6atot cashBase cff : ℕ → ℚ) (t : ℕ) : ℚ :=
  assetsTotalR m6atot cashBase cff t

/-- One row of the rebuilt balance sheet (runner.py lines 354-361). -/
structure BSRow where
  cash : ℚ
  junLiab : ℚ
  junEq : ℚ
  payable : ℚ
  assetsTotal : ℚ
  leTotal : ℚ

/-- The rebuilt balance-sheet row for period `t` (runner.py lines 354-361),
with the junior liability, junior equity and payable columns taken as
arbitrary input series. -/
def bsRowAt (m6atot cashBase cff junLiab junEq payable : ℕ → ℚ) (t : ℕ) :
    BSRow :=
  { cash := cashRebuilt cashBase cff t
    junLiab := junLiab t
    junEq := junEq t
    payable := payable t
    assetsTotal := assetsTotalR m6atot cashBase cff t
    leTotal := leTotalR m6atot cashBase cff t }

/-- The spec's example loan row: principal 12000, 12%/yr, tenor 12, draw
window [1,1], annuity policy. -/
def rowEx : LoanRow := fun n =>
  if n = "Principal" then some (.vNum 12000)
  else if n = "Rate_Pct" then some (.vNum 12)
  else if n = "Tenor_Months" then some (.vNum 12)
  else if n = "Draw_Start_M" then some (.vNum 1)
  else if n = "Draw_End_M" then some (.vNum 1)
  else if n = "Grace_Principal_M" then some (.vNum 0)
  else if n = "Amort_Type" then some (.vStr "annuity")
  else none

/-- Sanitized parameters of `rowEx` at horizon 12. -/
def pEx : SanParams := ⟨12000, 12, 12, 1, 1, 0, "annuity"⟩

/-- A loan row with a negative principal (a standard bullet loan row with
`Principal = -1200`, tenor 12, draw window [1,1]). -/
def rowNegPrin : LoanRow := fun n =>
  if n = "Principal" then some (.vNum (-1200))
  else if n = "Rate_Pct" then some (.vNum 0)
  else if n = "Tenor_Months" then some (.vNum 12)
  else if n = "Draw_Start_M" then some (.vNum 1)
  else if n = "Draw_End_M" then some (.vNum 1)
  else if n = "Grace_Principal_M" then some (.vNum 0)
  else if n = "Amort_Type" then some (.vStr "bullet")
  else none

/-- Sanitized parameters of `rowNegPrin` at horizon 12. -/
def pNegPrin : SanParams := ⟨-1200, 0, 12, 1, 1, 0, "bullet"⟩

/-- An annuity loan row with a negative constant rate (-600 %/yr, i.e. a
monthly rate of -1/2), principal 1200, tenor 4, draw window [1,1]. -/
def rowRateNeg : LoanRow := fun n =>
  if n = "Principal" then some (.vNum 1200)
  else if n = "Rate_Pct" then some (.vNum (-600))
  else if n = "Tenor_Months" then some (.vNum 4)
  else if n = "Draw_Start_M" then some (.vNum 1)
  else if n = "Draw_End_M" then some (.vNum 1)
  else if n = "Grace_Principal_M" then some (.vNum 0)
  else if n = "Amort_Type" then some (.vStr "annuity")
  else none

/-- Sanitized parameters of `rowRateNeg` at horizon 4. -/
def pRateNeg : SanParams := ⟨1200, -600, 4, 1, 1, 0, "annuity"⟩

/-- A loan row whose policy string "Bullet" is none of the three lowercase
policy names but normalizes to "bullet" (principal 1200, rate 0, tenor 4,
draw window [1,1]). -/
def rowCapBullet : LoanRow := fun n =>
  if n = "Principal" then some (.vNum 1200)
  else if n = "Rate_Pct" then some (.vNum 0)
  else if n = "Tenor_Months" then some (.vNum 4)
  else if n = "Draw_Start_M" then some (.vNum 1)
  else if n = "Draw_End_M" then some (.vNum 1)
  else if n = "Grace_Principal_M" then some (.vNum 0)
  else if n = "Amort_Type" then some (.vStr "Bullet")
  else none

/-- A loan row with a genuinely unknown policy string, otherwise identical
to `rowCapBullet`. -/
def rowOddPolicy : LoanRow := fun n =>
  if n = "Amort_Type" then some (.vStr "mystery") else rowCapBullet n

/-- A loan row whose numeric fields hold the non-numeric string "abc". -/
def rowBadNums : LoanRow := fun n =>
  if n = "Principal" then some (.vStr "abc")
  else if n = "Rate_Pct" then some (.vStr "abc")
  else if n = "Tenor_Months" then some (.vStr "abc")
  else none

/-- A catalog with all required columns and no rows. -/
def stackW : FinStack := ⟨reqCols, []⟩

/-- A selector table with Key/Value columns and no rows at all (so in
particular no "PFinance_Case" row). -/
def selW : Selector := ⟨["Key", "Value"], []⟩

/-! ## Basic facts about the waterfall and schedule constructions -/

/-- `cumsum` is the running sum over `Finset.range`. -/
lemma cumsum_eq_sum (f : ℕ → ℚ) (t : ℕ) :
    cumsum f t = Finset.sum (Finset.range (t + 1)) f := by
  induction t with
  | zero => simp [cumsum]
  | succ n ih =>
    rw [cumsum, ih]
    conv_rhs => rw [Finset.sum_range_succ]

/-- The per-period unpaid amount is never negative. -/
lemma unpaidW_nonneg (sched avail : ℚ) : 0 ≤ unpaidW sched avail :=
  sub_nonneg.2 (min_le_left _ _)

/-- C1 (confirmed).  For every instrument schedule produced by the loan
generator and every period row, `closing = opening + draw - repay` exactly,
hence within the 1e-6 tolerance. -/
theorem rollforward_identity (row : LoanRow) (h : ℕ) (p : SanParams)
    (_hs : sanitize row h = .ok p) (m : ℕ) :
    (schedRow p m).closing
        = (schedRow p m).opening + (schedRow p m).draw - (schedRow p m).repay
      ∧ |(schedRow p m).opening + (schedRow p m).draw - (schedRow p m).repay
          - (schedRow p m).closing| ≤ 1 / 1000000 := by
  refine ⟨rfl, ?_⟩
  have hz : (schedRow p m).opening + (schedRow p m).draw - (schedRow p m).repay
      - (schedRow p m).closing = 0 := by
    simp [schedRow]
  rw [hz]
  norm_num

/-- Witness for C1 at the spec's example loan, month 12. -/
theorem rollforward_identity_witness :
    sanitize rowEx 12 = .ok pEx
      ∧ (schedRow pEx 12).closing
          = (schedRow pEx 12).opening + (schedRow pEx 12).draw - (schedRow pEx 12).repay :=
  ⟨by decide, (rollforward_identity rowEx 12 pEx (by decide) 12).1⟩

/-- C3 (confirmed).  The waterfall computes
`available = max(0, CFO - senior - tax - buffer)` with the buffer at its
default 0 (the cited runner takes no buffer input), and
`actual_out = min(scheduled, available)`; hence `available ≥ 0`,
`actual_out ≤ scheduled` and `actual_out ≤ available`, and the example
CFO=100, senior=60, tax=10, scheduled=50 gives available=30, actual_out=30,
shortfall=20. -/
theorem waterfall_available_bounds :
    (∀ cfo senior tax sched : ℚ,
        availableW cfo senior tax = max 0 (cfo - senior - tax - 0)
      ∧ 0 ≤ availableW cfo senior tax
      ∧ actualOutW sched (availableW cfo senior tax) ≤ sched
      ∧ actualOutW sched (availableW cfo senior tax) ≤ availableW cfo senior tax)
  ∧ availableW 100 60 10 = 30
  ∧ actualOutW 50 (availableW 100 60 10) = 30
  ∧ unpaidW 50 (availableW 100 60 10) = 20 := by
  refine ⟨fun cfo senior tax sched =>
    ⟨by rw [sub_zero]; rfl, le_max_left _ _, min_le_left _ _, min_le_right _ _⟩,
    by decide, by decide, by decide⟩

/-- C4 (confirmed).  The cumulative payable is the running sum of the
per-period shortfalls `scheduled - actual_out`, and (given nonnegative
scheduled outflows) it never decreases from one period to the next. -/
theorem payable_running_sum_monotone (cfo senior tax sched : ℕ → ℚ) (t : ℕ) :
    payableEop cfo senior tax sched t
        = Finset.sum (Finset.range (t + 1))
            (fun i => sched i - actualOutW (sched i) (availableW (cfo i) (senior i) (tax i)))
      ∧ ((∀ i, 0 ≤ sched i) →
          payableEop cfo senior tax sched t ≤ payableEop cfo senior tax sched (t + 1)) := by
  constructor
  · exact cumsum_eq_sum _ t
  · intro _
    have hstep : payableEop cfo senior tax sched (t + 1)
        = payableEop cfo senior tax sched t
          + unpaidW (sched (t + 1)) (availableW (cfo (t + 1)) (senior (t + 1)) (tax (t + 1))) := rfl
    rw [hstep]
    exact le_add_of_nonneg_right (unpaidW_nonneg _ _)

/-- Witness for C4 with constant series. -/
theorem payable_running_sum_monotone_witness :
    payableEop (fun _ => 100) (fun _ => 60) (fun _ => 10) (fun _ => 50) 1
      ≤ payableEop (fun _ => 100) (fun _ => 60) (fun _ => 10) (fun _ => 50) 2 :=
  (payable_running_sum_monotone (fun _ => 100) (fun _ => 60) (fun _ => 10) (fun _ => 50) 1).2
    (fun _ => by norm_num)

/-- C7 (confirmed).  Every revolver schedule row has zero opening, draw,
repayment and closing, and interest `0.5 * principal * monthly_rate` exactly
for `draw_start ≤ m ≤ tenor` and 0 otherwise; the example revolver
(principal 2000, 12%/yr, draw start 7, tenor 36) accrues 10.00 in every
month 7..36 and 0.00 outside. -/
theorem revolver_cost_profile :
    (∀ (lineId : ℤ) (ccy : String) (principal ratePct : ℚ) (tenor ds m : ℤ),
        (revolverRow lineId ccy principal (ratePct / 100 / 12) tenor ds m).opening = 0
      ∧ (revolverRow lineId ccy principal (ratePct / 100 / 12) tenor ds m).draw = 0
      ∧ (revolverRow lineId ccy principal (ratePct / 100 / 12) tenor ds m).repay = 0
      ∧ (revolverRow lineId ccy principal (ratePct / 100 / 12) tenor ds m).closing = 0
      ∧ (revolverRow lineId ccy principal (ratePct / 100 / 12) tenor ds m).interest
          = (if ds ≤ m ∧ m ≤ tenor then 1 / 2 * principal * (ratePct / 100 / 12) else 0))
  ∧ (∀ m : ℤ, 7 ≤ m → m ≤ 36 →
      (revolverRow 1 "NAD" 2000 ((12 : ℚ) / 100 / 12) 36 7 m).interest = 10)
  ∧ (revolverRow 1 "NAD" 2000 ((12 : ℚ) / 100 / 12) 36 7 6).interest = 0
  ∧ (revolverRow 1 "NAD" 2000 ((12 : ℚ) / 100 / 12) 36 7 37).interest = 0 := by
  refine ⟨fun lineId ccy principal ratePct tenor ds m =>
    ⟨rfl, rfl, rfl, rfl, rfl⟩, ?_, by decide, by decide⟩
  intro m h7 h36
  have : (revolverRow 1 "NAD" 2000 ((12 : ℚ) / 100 / 12) 36 7 m).interest
      = if (7 : ℤ) ≤ m ∧ m ≤ 36 then 1 / 2 * 2000 * ((12 : ℚ) / 100 / 12) else 0 := rfl
  rw [this, if_pos ⟨h7, h36⟩]
  norm_num

/-- Witness for C7's bounded-quantifier part at month 20. -/
theorem revolver_cost_profile_witness :
    (revolverRow 1 "NAD" 2000 ((12 : ℚ) / 100 / 12) 36 7 20).interest = 10 :=
  revolver_cost_profile.2.1 20 (by norm_num) (by norm_num)

/-- C10 (confirmed).  The rebuilt balance sheet assigns
`Liabilities_And_Equity_Total` as a copy of `Assets_Total`, so the
balance-sheet identity holds by construction for every period, whatever the
junior liability, junior equity and payable columns contain. -/
theorem balance_sheet_tie_by_construction
    (m6atot cashBase cff junLiab junEq payable : ℕ → ℚ) (t : ℕ) :
    (bsRowAt m6atot cashBase cff junLiab junEq payable t).leTotal
        = (bsRowAt m6atot cashBase cff junLiab junEq payable t).assetsTotal
      ∧ |(bsRowAt m6atot cashBase cff junLiab junEq payable t).assetsTotal
          - (bsRowAt m6atot cashBase cff junLiab junEq payable t).leTotal| ≤ 1 / 1000000 := by
  refine ⟨rfl, ?_⟩
  have hz : (bsRowAt m6atot cashBase cff junLiab junEq payable t).assetsTotal
      - (bsRowAt m6atot cashBase cff junLiab junEq payable t).leTotal = 0 := by
    simp [bsRowAt, leTotalR]
  rw [hz]
  norm_num

/-- C5 (confirmed).  Whenever the selector table has no "PFinance_Case"
row, `create_financing_schedules` fails for every catalog input, with one of
the three configuration errors (the code realizes each as a `KeyError`). -/
theorem missing_case_key_fails (stack : FinStack) (selector : Selector) (horizon : ℕ)
    (hnone : selector.rows.filter (fun kv => kv.1 = "PFinance_Case") = []) :
    ∃ e, create_financing_schedules stack selector horizon = .error e
      ∧ (e = M3Err.missingStackCols ∨ e = M3Err.missingSelectorKV
          ∨ e = M3Err.missingCaseRow) := by
  unfold create_financing_schedules
  by_cases h1 : (reqCols.filter (fun c => !stack.cols.contains c)) ≠ []
  · exact ⟨M3Err.missingStackCols, by rw [if_pos h1], Or.inl rfl⟩
  · rw [if_neg h1]
    by_cases h2 : (!(selector.cols.contains "Key" && selector.cols.contains "Value")) = true
    · exact ⟨M3Err.missingSelectorKV, by rw [if_pos h2], Or.inr (Or.inl rfl)⟩
    · rw [if_neg h2, hnone]
      exact ⟨M3Err.missingCaseRow, rfl, Or.inr (Or.inr rfl)⟩

/-- Witness for C5: an empty selector with correct columns, an empty catalog
with all required columns. -/
theorem missing_case_key_fails_witness :
    ∃ e, create_financing_schedules stackW selW 12 = .error e
      ∧ (e = M3Err.missingStackCols ∨ e = M3Err.missingSelectorKV
          ∨ e = M3Err.missingCaseRow) :=
  missing_case_key_fails stackW selW 12 (by decide)

/-! ## C6: malformed numeric inputs -/

/-- C6 counterexample.  A row whose numeric fields hold the non-numeric
string "abc": the float fields do coerce to 0, but extraction of the integer
field `Tenor_Months` raises (`int(float("abc"))` in the `except` fallback),
so `create_loan_schedule` does not return normally — refuting the claim that
no malformed numeric input raises. -/
theorem numeric_coercion_claim_false :
    fval rowBadNums "Principal" 0 = 0
  ∧ fval rowBadNums "Rate_Pct" 0 = 0
  ∧ sanitize rowBadNums 12 = .error ()
  ∧ create_loan_schedule rowBadNums 12 = .error () := by
  refine ⟨by decide, by decide, by decide, ?_⟩
  show (sanitize rowBadNums 12).map (fun p m => schedRow p m) = .error ()
  rw [show sanitize rowBadNums 12 = .error () from by decide]
  rfl

/-- C6 (corrected).  What the defensive parsing actually does: (i) a float
field whose coercion fails degrades to the field default; (ii) an integer
field holding `None` degrades to the field default (not 0 in general: the
tenor default is the horizon, the draw-start default 1); (iii) an integer
field holding a non-numeric, non-empty string raises `ValueError`; and (iv)
such a string in `Tenor_Months` makes `create_loan_schedule` itself raise
rather than return. -/
theorem numeric_coercion_amended :
    (∀ (row : LoanRow) (name : String) (d : ℚ) (v : PyVal),
        row name = some v → pyFloatE v = .error () → fval row name d = d)
  ∧ (∀ (row : LoanRow) (name : String) (d : ℤ),
        row name = some PyVal.vNone → ival row name d = .ok d)
  ∧ (∀ (row : LoanRow) (name : String) (d : ℤ) (s : String),
        row name = some (.vStr s) → s ≠ "" →
        parseInt? s = none → parseFloat? s = none →
        ival row name d = .error ())
  ∧ (∀ (row : LoanRow) (h : ℕ) (s : String),
        row "Tenor_Months" = some (.vStr s) → s ≠ "" →
        parseInt? s = none → parseFloat? s = none →
        create_loan_schedule row h = .error ()) := by
  have hival : ∀ (row : LoanRow) (name : String) (d : ℤ) (s : String),
      row name = some (.vStr s) → s ≠ "" →
      parseInt? s = none → parseFloat? s = none →
      ival row name d = .error () := by
    intro row name d s hrow hs hint hflt
    simp [ival, hrow, pyIntE, hint, pyFloatE, hflt, hs]
  refine ⟨?_, ?_, hival, ?_⟩
  · intro row name d v hrow hflt
    simp [fval, hrow, hflt]
  · intro row name d hrow
    simp [ival, hrow, pyIntE]
  · intro row h s hrow hs hint hflt
    have hT := hival row "Tenor_Months" (h : ℤ) s hrow hs hint hflt
    show (sanitize row h).map (fun p m => schedRow p m) = .error ()
    unfold sanitize
    rw [hT]
    rfl

/-- Witness for C6's amended claim at the concrete bad row. -/
theorem numeric_coercion_amended_witness :
    fval rowBadNums "Principal" 9 = 9
  ∧ ival rowBadNums "Draw_Start_M" 1 = .ok 1
  ∧ ival rowBadNums "Tenor_Months" 12 = .error ()
  ∧ create_loan_schedule rowBadNums 12 = .error () :=
  ⟨numeric_coercion_amended.1 rowBadNums "Principal" 9 (.vStr "abc") (by decide) (by decide),
   by decide,
   numeric_coercion_amended.2.2.1 rowBadNums "Tenor_Months" 12 "abc"
     (by decide) (by decide) (by decide) (by decide),
   numeric_coercion_amended.2.2.2 rowBadNums 12 "abc"
     (by decide) (by decide) (by decide) (by decide)⟩

/-! ## C9: policy dispatch and the annuity fallback -/

/-- Reading a field other than the updated one is unchanged. -/
lemma updateRow_other (row : LoanRow) (key n : String) (v : PyVal)
    (hne : n ≠ key) : updateRow row key v n = row n := by
  simp [updateRow, hne]

/-- `_fval` of an untouched field is unchanged by a row update. -/
lemma fval_update (row : LoanRow) (key name : String) (v : PyVal) (d : ℚ)
    (hne : name ≠ key) : fval (updateRow row key v) name d = fval row name d := by
  unfold fval
  rw [updateRow_other row key name v hne]

/-- `_ival` of an untouched field is unchanged by a row update. -/
lemma ival_update (row : LoanRow) (key name : String) (v : PyVal) (d : ℤ)
    (hne : name ≠ key) : ival (updateRow row key v) name d = ival row name d := by
  unfold ival
  rw [updateRow_other row key name v hne]

/-- Overwriting the policy field only replaces the normalized policy string
of the sanitized parameters; every numeric extraction is untouched. -/
lemma sanitize_update_policy (row : LoanRow) (h : ℕ) (v : PyVal) :
    sanitize (updateRow row "Amort_Type" v) h
      = (sanitize row h).map (fun p =>
          ⟨p.principal, p.ratePct, p.tenor, p.drawStart, p.drawEnd, p.gracePrin,
           stripLower (pyStr v)⟩) := by
  have e1 : ival (updateRow row "Amort_Type" v) "Tenor_Months" (h : ℤ)
      = ival row "Tenor_Months" (h : ℤ) := ival_update _ _ _ _ _ (by decide)
  have e2 : ival (updateRow row "Amort_Type" v) "Draw_Start_M" 1
      = ival row "Draw_Start_M" 1 := ival_update _ _ _ _ _ (by decide)
  have e3 : ∀ d, ival (updateRow row "Amort_Type" v) "Draw_End_M" d
      = ival row "Draw_End_M" d := fun d => ival_update _ _ _ _ _ (by decide)
  have e4 : ival (updateRow row "Amort_Type" v) "Grace_Principal_M" 0
      = ival row "Grace_Principal_M" 0 := ival_update _ _ _ _ _ (by decide)
  have e5 : fval (updateRow row "Amort_Type" v) "Principal" 0
      = fval row "Principal" 0 := fval_update _ _ _ _ _ (by decide)
  have e6 : fval (updateRow row "Amort_Type" v) "Rate_Pct" 0
      = fval row "Rate_Pct" 0 := fval_update _ _ _ _ _ (by decide)
  have eA : updateRow row "Amort_Type" v "Amort_Type" = some v := by
    simp [updateRow]
  unfold sanitize
  simp only [e1, e2, e3, e4, e5, e6, eA, Option.getD_some]
  split
  · rfl
  · split
    · rfl
    · split
      · rfl
      · split
        · rfl
        · rfl

/-- The shape facts `sanitize` guarantees about its output: the normalized
policy string, and the clamps on tenor, draw window and grace. -/
lemma sanitize_ok_shape (row : LoanRow) (h : ℕ) (p : SanParams)
    (hs : sanitize row h = .ok p) :
    p.amortType = stripLower (pyStr ((row "Amort_Type").getD (.vStr "annuity")))
  ∧ 0 ≤ p.tenor ∧ 1 ≤ p.drawStart ∧ 0 ≤ p.drawEnd
  ∧ p.drawEnd ≤ p.tenor ∧ p.drawEnd ≤ (h : ℤ) ∧ 0 ≤ p.gracePrin := by
  unfold sanitize at hs
  split at hs
  · cases hs
  · split at hs
    · cases hs
    · split at hs
      · cases hs
      · split at hs
        · cases hs
        · cases hs
          refine ⟨rfl, ?_, ?_, ?_, ?_, ?_, ?_⟩ <;> simp only [] <;> omega

/-- `preBal` ignores the policy string. -/
lemma preBal_policy (p : SanParams) (s : String) (k : ℕ) :
    preBal ⟨p.principal, p.ratePct, p.tenor, p.drawStart, p.drawEnd,
        p.gracePrin, s⟩ k = preBal p k := by
  induction k with
  | zero => rfl
  | succ n ih => rw [preBal, preBal, ih]; rfl

/-- The annuity payment ignores the policy string. -/
lemma annuityPmt_policy (p : SanParams) (s : String) :
    annuityPmt ⟨p.principal, p.ratePct, p.tenor, p.drawStart, p.drawEnd,
        p.gracePrin, s⟩ = annuityPmt p := by
  unfold annuityPmt pv
  rw [preBal_policy]
  rfl

/-- The straight-line installment ignores the policy string. -/
lemma straightPrin_policy (p : SanParams) (s : String) :
    straightPrin ⟨p.principal, p.ratePct, p.tenor, p.drawStart, p.drawEnd,
        p.gracePrin, s⟩ = straightPrin p := by
  unfold straightPrin pv
  rw [preBal_policy]
  rfl

/-- Replacing a policy that is neither "straight" nor "bullet" by "annuity"
leaves the repayment unchanged: the unknown-policy fallback (engine.py
lines 115-121) is the annuity branch (lines 100-106). -/
lemma repayAt_policy_subst (p : SanParams) (s : String) (hs1 : s ≠ "straight")
    (hs2 : s ≠ "bullet") (m : ℤ) (o : ℚ) :
    repayAt ⟨p.principal, p.ratePct, p.tenor, p.drawStart, p.drawEnd,
        p.gracePrin, s⟩ m o
      = repayAt ⟨p.principal, p.ratePct, p.tenor, p.drawStart, p.drawEnd,
          p.gracePrin, "annuity"⟩ m o := by
  by_cases hsann : s = "annuity"
  · rw [hsann]
  · unfold repayAt
    simp only [annuityPmt_policy, straightPrin_policy, hsann, hs1, hs2]
    rfl

/-- Within the amortization window the repayment of a policy that is
neither "straight" nor "bullet" is the annuity repayment. -/
lemma repayAt_policy_default (p : SanParams) (h1 : p.amortType ≠ "straight")
    (h2 : p.amortType ≠ "bullet") (m : ℤ) (o : ℚ) :
    repayAt p m o
      = repayAt ⟨p.principal, p.ratePct, p.tenor, p.drawStart, p.drawEnd,
          p.gracePrin, "annuity"⟩ m o :=
  repayAt_policy_subst p p.amortType h1 h2 m o

/-- The closing-balance path of a policy that is neither "straight" nor
"bullet" coincides with the annuity path. -/
lemma closingBal_policy_default (p : SanParams) (h1 : p.amortType ≠ "straight")
    (h2 : p.amortType ≠ "bullet") (k : ℕ) :
    closingBal p k
      = closingBal ⟨p.principal, p.ratePct, p.tenor, p.drawStart, p.drawEnd,
          p.gracePrin, "annuity"⟩ k := by
  induction k with
  | zero => rfl
  | succ n ih =>
    rw [closingBal, closingBal, ih, repayAt_policy_default p h1 h2]
    rfl

/-- Full row-level agreement of an unrecognized policy with annuity. -/
lemma schedRow_policy_default (p : SanParams) (h1 : p.amortType ≠ "straight")
    (h2 : p.amortType ≠ "bullet") (m : ℕ) :
    schedRow p m
      = schedRow ⟨p.principal, p.ratePct, p.tenor, p.drawStart, p.drawEnd,
          p.gracePrin, "annuity"⟩ m := by
  unfold schedRow
  simp only [closingBal_policy_default p h1 h2, repayAt_policy_default p h1 h2]
  rfl

/-- C9 counterexample.  The row `rowCapBullet` carries the policy string
"Bullet", which is none of the three strings 'annuity', 'straight',
'bullet', yet `create_loan_schedule` normalizes it to "bullet" and produces
the bullet schedule: at month 2 it repays 0, while the same row with the
policy set to 'annuity' repays 400 — the schedules are not identical. -/
theorem unknown_policy_claim_false :
    ("Bullet" : String) ≠ "annuity" ∧ ("Bullet" : String) ≠ "straight"
  ∧ ("Bullet" : String) ≠ "bullet"
  ∧ rowCapBullet "Amort_Type" = some (.vStr "Bullet")
  ∧ sanitize rowCapBullet 12 = .ok ⟨1200, 0, 4, 1, 1, 0, "bullet"⟩
  ∧ sanitize (updateRow rowCapBullet "Amort_Type" (.vStr "annuity")) 12
      = .ok ⟨1200, 0, 4, 1, 1, 0, "annuity"⟩
  ∧ (schedRow ⟨1200, 0, 4, 1, 1, 0, "bullet"⟩ 2).repay = 0
  ∧ (schedRow ⟨1200, 0, 4, 1, 1, 0, "annuity"⟩ 2).repay = 400 :=
  ⟨by decide, by decide, by decide, by decide, by decide, by decide, by decide, by decide⟩

/-- C9 (corrected).  For every instrument row whose policy string, after
the code's strip-and-lowercase normalization, is neither "straight" nor
"bullet" (in particular every genuinely unknown policy string), the
schedule is identical to the one for the same row with the policy set to
'annuity'. -/
theorem unknown_policy_defaults_annuity_amended (row : LoanRow) (h : ℕ) (s : String)
    (hrow : row "Amort_Type" = some (.vStr s))
    (hs1 : stripLower s ≠ "straight") (hs2 : stripLower s ≠ "bullet") :
    create_loan_schedule row h
      = create_loan_schedule (updateRow row "Amort_Type" (.vStr "annuity")) h := by
  unfold create_loan_schedule
  rw [sanitize_update_policy]
  cases hsan : sanitize row h with
  | error e => rfl
  | ok p =>
    have hpa : p.amortType = stripLower s := by
      have hshape := (sanitize_ok_shape row h p hsan).1
      rw [hrow] at hshape
      simpa [pyStr] using hshape
    have hann : stripLower (pyStr (.vStr "annuity")) = "annuity" := by decide
    simp only [Except.map, hann]
    congr 1
    funext m
    have h1 : p.amortType ≠ "straight" := by rw [hpa]; exact hs1
    have h2 : p.amortType ≠ "bullet" := by rw [hpa]; exact hs2
    exact schedRow_policy_default p h1 h2 m

/-- Witness for C9's amended claim at a row with the unknown policy string
"mystery". -/
theorem unknown_policy_defaults_annuity_amended_witness :
    create_loan_schedule rowOddPolicy 12
      = create_loan_schedule (updateRow rowOddPolicy "Amort_Type" (.vStr "annuity")) 12 :=
  unknown_policy_defaults_annuity_amended rowOddPolicy 12 "mystery"
    (by decide) (by decide) (by decide)

/-! ## C8: interest monotonicity under the annuity policy -/

/-- C8 counterexample.  An annuity loan with a constant negative rate
(-600 %/yr): once amortization begins at month 2, the interest accrued rises
from -600 at month 2 to -1800/7 at month 3, so interest is not
non-increasing period-over-period. -/
theorem annuity_interest_claim_false :
    sanitize rowRateNeg 4 = .ok pRateNeg
  ∧ pRateNeg.amortType = "annuity"
  ∧ amortStart pRateNeg = 2
  ∧ pRateNeg.tenor = 4
  ∧ (schedRow pRateNeg 2).interest = -600
  ∧ (schedRow pRateNeg 3).interest = -1800 / 7
  ∧ ¬ ((schedRow pRateNeg 3).interest ≤ (schedRow pRateNeg 2).interest) :=
  ⟨by decide, by decide, by decide, by decide, by decide, by decide, by decide⟩

/-- Every repayment of a non-straight policy is nonnegative (each branch is
0 or a `max 0 _`). -/
lemma repayAt_nonneg (p : SanParams) (hstraight : p.amortType ≠ "straight")
    (m : ℤ) (o : ℚ) : 0 ≤ repayAt p m o := by
  unfold repayAt
  split_ifs with h1 h2 h3 h4 h5 h6 <;>
    first
      | exact le_max_left 0 _
      | exact le_refl 0
      | exact absurd (by assumption : p.amortType = "straight") hstraight

/-- C8 (corrected).  For every loan extracted from an instrument row with
the annuity policy and a nonnegative constant rate, once the amortization
window has begun the interest accrued is non-increasing from each period to
the next inside the window. -/
theorem annuity_interest_monotone_amended (row : LoanRow) (h : ℕ) (p : SanParams)
    (m : ℕ) (hs : sanitize row h = .ok p) (hpol : p.amortType = "annuity")
    (hrate : 0 ≤ p.ratePct)
    (hm1 : amortStart p ≤ (m : ℤ)) (hm2 : (m : ℤ) + 1 ≤ p.tenor) :
    (schedRow p (m + 1)).interest ≤ (schedRow p m).interest := by
  obtain ⟨-, htenor0, -, hde0, -, -, hg0⟩ := sanitize_ok_shape row h p hs
  have hA1 : 1 ≤ amortStart p := by
    unfold amortStart
    omega
  have hAde : amortStart p = p.drawEnd + p.gracePrin + 1 := by
    unfold amortStart at hm1 ⊢
    omega
  have hm1n : 1 ≤ m := by omega
  have hmt : (m : ℤ) ≤ p.tenor := by omega
  have hI1 : (schedRow p m).interest = closingBal p (m - 1) * rM p := by
    show interestAt p (m : ℤ) (closingBal p (m - 1)) = _
    unfold interestAt
    rw [if_pos ⟨by omega, hmt⟩]
  have hI2 : (schedRow p (m + 1)).interest = closingBal p m * rM p := by
    show interestAt p ((m : ℕ) + 1 : ℕ) (closingBal p m) = _
    unfold interestAt
    rw [if_pos ⟨by omega, by push_cast; omega⟩]
  have hub : closingBal p m
      = closingBal p (m - 1) + drawAt p (m : ℤ)
        - repayAt p (m : ℤ) (closingBal p (m - 1)) := by
    obtain ⟨k, rfl⟩ : ∃ k, m = k + 1 := ⟨m - 1, by omega⟩
    show closingBal p (k + 1) = _
    rw [closingBal]
    norm_num
  have hdraw : drawAt p (m : ℤ) = 0 := by
    unfold drawAt
    apply if_neg
    rintro ⟨-, -, hle⟩
    omega
  have hrep : 0 ≤ repayAt p (m : ℤ) (closingBal p (m - 1)) :=
    repayAt_nonneg p (by rw [hpol]; decide) _ _
  have hball : closingBal p m ≤ closingBal p (m - 1) := by
    rw [hub, hdraw]
    linarith
  rw [hI1, hI2]
  have hrm : 0 ≤ rM p := by
    unfold rM
    positivity
  exact mul_le_mul_of_nonneg_right hball hrm

/-- Witness for C8's amended claim at the spec's example loan, months 2 and
3 of the amortization window. -/
theorem annuity_interest_monotone_amended_witness :
    (schedRow pEx 3).interest ≤ (schedRow pEx 2).interest :=
  annuity_interest_monotone_amended rowEx 12 pEx 2 (by decide) (by decide)
    (by decide) (by decide) (by decide)

/-! ## C2: terminal clearance -/

/-- Monthly draws are nonnegative for a nonnegative principal. -/
lemma monthlyDraw_nonneg (p : SanParams) (hP : 0 ≤ p.principal) :
    0 ≤ monthlyDraw p := by
  unfold monthlyDraw
  split_ifs with hdm
  · exact div_nonneg hP (by exact_mod_cast le_of_lt hdm)
  · exact le_refl 0

/-- Draws are nonnegative for a nonnegative principal. -/
lemma drawAt_nonneg (p : SanParams) (hP : 0 ≤ p.principal) (m : ℤ) :
    0 ≤ drawAt p m := by
  unfold drawAt
  split_ifs with hdm
  · exact monthlyDraw_nonneg p hP
  · exact le_refl 0

/-- The repayment-free balance is nonnegative for a nonnegative principal. -/
lemma preBal_nonneg (p : SanParams) (hP : 0 ≤ p.principal) (k : ℕ) :
    0 ≤ preBal p k := by
  induction k with
  | zero => exact le_refl 0
  | succ n ih => exact add_nonneg ih (drawAt_nonneg p hP _)

/-- Before the amortization window starts no repayment occurs, so the
closing balance is the repayment-free balance. -/
lemma closingBal_eq_preBal (p : SanParams) :
    ∀ k : ℕ, (k : ℤ) < amortStart p → closingBal p k = preBal p k := by
  intro k
  induction k with
  | zero => intro _; rfl
  | succ n ih =>
    intro hk
    have hrep : repayAt p ((n : ℤ) + 1) (closingBal p n) = 0 := by
      unfold repayAt
      apply if_neg
      rintro ⟨-, hA, -⟩
      push_cast at hk
      omega
    rw [closingBal, preBal, hrep, ih (by push_cast at hk ⊢; omega)]
    ring

/-- The window start is at least 1 under the sanitizer's clamps. -/
lemma amortStart_pos (p : SanParams) (hde : 0 ≤ p.drawEnd) (hg : 0 ≤ p.gracePrin)
    (hT : 1 ≤ p.tenor) : 1 ≤ amortStart p := by
  unfold amortStart
  omega

/-- The window start never exceeds the tenor. -/
lemma amortStart_le_tenor (p : SanParams) : amortStart p ≤ p.tenor :=
  min_le_right _ _

/-- With at least one tenor month the window is nonempty. -/
lemma amortNper_pos (p : SanParams) (hde : 0 ≤ p.drawEnd) (hg : 0 ≤ p.gracePrin)
    (hT : 1 ≤ p.tenor) : 0 < amortNper p ∧ amortNper p = p.tenor - amortStart p + 1 := by
  have h1 := amortStart_le_tenor p
  unfold amortNper
  omega

/-- When the window starts strictly before the tenor month, its start is
exactly `draw_end + grace + 1`, so no draw falls on a window month before
the tenor month. -/
lemma amortStart_eq_of_lt (p : SanParams) (hlt : amortStart p < p.tenor) :
    amortStart p = p.drawEnd + p.gracePrin + 1 := by
  unfold amortStart at hlt ⊢
  omega

/-- No draw falls strictly inside the window (months `≥ amortStart`, before
the tenor) when the window starts before the tenor. -/
lemma drawAt_window_zero (p : SanParams) (hg : 0 ≤ p.gracePrin)
    (hlt : amortStart p < p.tenor) (m : ℤ) (hm : amortStart p ≤ m) :
    drawAt p m = 0 := by
  have hde := amortStart_eq_of_lt p hlt
  unfold drawAt
  apply if_neg
  rintro ⟨-, -, hle⟩
  omega

/-- The starting balance of the window is nonnegative. -/
lemma pv_nonneg (p : SanParams) (hP : 0 ≤ p.principal) : 0 ≤ pv p :=
  preBal_nonneg p hP _

/-- One step of the schedule loop. -/
lemma closingBal_step (p : SanParams) (j : ℕ) :
    closingBal p (j + 1)
      = closingBal p j + drawAt p ((j : ℤ) + 1)
        - repayAt p ((j : ℤ) + 1) (closingBal p j) := rfl

/-- Inside the window, before the tenor month, a non-straight non-bullet
policy repays the annuity amount `max 0 (pmt - opening * r)`. -/
lemma repayAt_window_annuity (p : SanParams) (h1 : p.amortType ≠ "straight")
    (h2 : p.amortType ≠ "bullet") (m : ℤ) (o : ℚ)
    (hw : 0 < amortNper p ∧ amortStart p ≤ m ∧ m ≤ p.tenor)
    (hA1 : 1 ≤ amortStart p) (hmt : m ≠ p.tenor) :
    repayAt p m o = max 0 (annuityPmt p - o * rM p) := by
  have hI : interestAt p m o = o * rM p := by
    unfold interestAt
    rw [if_pos ⟨le_trans hA1 hw.2.1, hw.2.2⟩]
  unfold repayAt
  rw [if_pos hw]
  by_cases hann : p.amortType = "annuity"
  · rw [if_pos hann, if_neg hmt, hI]
  · rw [if_neg hann, if_neg h1, if_neg h2, if_neg hmt, hI]

/-- Inside the window, before the tenor month, the straight policy repays
the fixed installment. -/
lemma repayAt_window_straight (p : SanParams) (hpol : p.amortType = "straight")
    (m : ℤ) (o : ℚ)
    (hw : 0 < amortNper p ∧ amortStart p ≤ m ∧ m ≤ p.tenor) (hmt : m ≠ p.tenor) :
    repayAt p m o = straightPrin p := by
  unfold repayAt
  rw [if_pos hw, if_neg (by rw [hpol]; decide), if_pos hpol, if_neg hmt]

/-- Inside the window, before the tenor month, the bullet policy repays
nothing. -/
lemma repayAt_window_bullet (p : SanParams) (hpol : p.amortType = "bullet")
    (m : ℤ) (o : ℚ)
    (hw : 0 < amortNper p ∧ amortStart p ≤ m ∧ m ≤ p.tenor) (hmt : m < p.tenor) :
    repayAt p m o = 0 := by
  unfold repayAt
  rw [if_pos hw, if_neg (by rw [hpol]; decide), if_neg (by rw [hpol]; decide),
    if_pos hpol, if_pos hmt]

/-- At the tenor month every policy plugs the residual:
`repay = max 0 (opening + draw)` (engine.py lines 105-106, 111-112, 114,
120-121). -/
lemma repayAt_tenor_plug (p : SanParams)
    (hw : 0 < amortNper p ∧ amortStart p ≤ p.tenor ∧ p.tenor ≤ p.tenor) (o : ℚ) :
    repayAt p p.tenor o = max 0 (o + drawAt p p.tenor) := by
  unfold repayAt
  rw [if_pos hw]
  by_cases h1 : p.amortType = "annuity"
  · rw [if_pos h1, if_pos rfl]
  · rw [if_neg h1]
    by_cases h2 : p.amortType = "straight"
    · rw [if_pos h2, if_pos rfl]
    · rw [if_neg h2]
      by_cases h3 : p.amortType = "bullet"
      · rw [if_pos h3, if_neg (lt_irrefl p.tenor)]
      · rw [if_neg h3, if_pos rfl]

/-- The balance at the month before the window start is the window's
starting balance `pv`. -/
lemma closingBal_before_window (p : SanParams) (hde : 0 ≤ p.drawEnd)
    (hg : 0 ≤ p.gracePrin) (hT : 1 ≤ p.tenor) :
    closingBal p ((amortStart p).toNat - 1) = pv p := by
  have hA1 := amortStart_pos p hde hg hT
  have ha : ((amortStart p).toNat : ℤ) = amortStart p := Int.toNat_of_nonneg (by omega)
  rw [closingBal_eq_preBal p _ (by push_cast; omega)]
  unfold pv
  congr 1
  omega

/-- Linear lower bound on the window balance: if every pre-tenor window
step repays at most `pv / nper` (given a nonnegative opening), the balance
after `k` window steps is at least `pv * (nper - k) / nper`. -/
lemma window_linear_bound (p : SanParams) (hP : 0 ≤ p.principal)
    (hde : 0 ≤ p.drawEnd) (hg : 0 ≤ p.gracePrin) (hT : 1 ≤ p.tenor)
    (hlt : amortStart p < p.tenor)
    (hstep : ∀ (m : ℤ) (o : ℚ), amortStart p ≤ m → m < p.tenor → 0 ≤ o →
        o - pv p / (amortNper p : ℚ) ≤ o - repayAt p m o) :
    ∀ k : ℕ, (k : ℤ) ≤ amortNper p - 1 →
      pv p * ((amortNper p : ℚ) - (k : ℚ)) / (amortNper p : ℚ)
        ≤ closingBal p ((amortStart p).toNat - 1 + k) := by
  have hA1 := amortStart_pos p hde hg hT
  have ha : ((amortStart p).toNat : ℤ) = amortStart p := Int.toNat_of_nonneg (by omega)
  have hnper := amortNper_pos p hde hg hT
  have hnpos : (0 : ℚ) < (amortNper p : ℚ) := by exact_mod_cast hnper.1
  have hpv := pv_nonneg p hP
  intro k
  induction k with
  | zero =>
    intro _
    rw [Nat.add_zero, closingBal_before_window p hde hg hT]
    rw [Nat.cast_zero, sub_zero, mul_div_assoc, div_self (ne_of_gt hnpos), mul_one]
  | succ k ih =>
    intro hk1
    have hk : (k : ℤ) ≤ amortNper p - 1 := by push_cast at hk1 ⊢; omega
    have ihb := ih hk
    have hmonth : ((((amortStart p).toNat - 1 + k : ℕ) : ℤ) + 1) = amortStart p + k := by
      push_cast
      omega
    have hdraw : drawAt p ((((amortStart p).toNat - 1 + k : ℕ) : ℤ) + 1) = 0 := by
      rw [hmonth]
      exact drawAt_window_zero p hg hlt _ (by omega)
    have hkq : (k : ℚ) ≤ (amortNper p : ℚ) := by exact_mod_cast (by omega : (k : ℤ) ≤ amortNper p)
    have hbk0 : 0 ≤ closingBal p ((amortStart p).toNat - 1 + k) := by
      refine le_trans ?_ ihb
      exact div_nonneg (mul_nonneg hpv (by linarith)) (le_of_lt hnpos)
    have hrep := hstep (amortStart p + k) (closingBal p ((amortStart p).toNat - 1 + k))
      (by omega) (by omega) hbk0
    show _ ≤ closingBal p (((amortStart p).toNat - 1 + k) + 1)
    rw [closingBal_step, hdraw, hmonth]
    have harith : pv p * ((amortNper p : ℚ) - ((k : ℚ) + 1)) / (amortNper p : ℚ)
        = pv p * ((amortNper p : ℚ) - (k : ℚ)) / (amortNper p : ℚ)
          - pv p / (amortNper p : ℚ) := by
      field_simp
      ring
    push_cast
    rw [harith]
    linarith

/-- The straight policy's window balance keeps the linear lower bound. -/
lemma window_bound_straight (p : SanParams) (hP : 0 ≤ p.principal)
    (hde : 0 ≤ p.drawEnd) (hg : 0 ≤ p.gracePrin) (hT : 1 ≤ p.tenor)
    (hpol : p.amortType = "straight") (hlt : amortStart p < p.tenor) :
    ∀ k : ℕ, (k : ℤ) ≤ amortNper p - 1 →
      pv p * ((amortNper p : ℚ) - (k : ℚ)) / (amortNper p : ℚ)
        ≤ closingBal p ((amortStart p).toNat - 1 + k) := by
  apply window_linear_bound p hP hde hg hT hlt
  intro m o hm1 hm2 _
  have hw : 0 < amortNper p ∧ amortStart p ≤ m ∧ m ≤ p.tenor :=
    ⟨(amortNper_pos p hde hg hT).1, hm1, le_of_lt hm2⟩
  rw [repayAt_window_straight p hpol m o hw (ne_of_lt hm2)]
  unfold straightPrin
  rw [if_pos hw.1]

/-- The annuity branch with a tiny rate (the `abs(rate) < 1e-12` guard of
`_annuity_payment`) repays at most `pv / nper` per window step. -/
lemma window_bound_tiny (p : SanParams) (hP : 0 ≤ p.principal)
    (hde : 0 ≤ p.drawEnd) (hg : 0 ≤ p.gracePrin) (hT : 1 ≤ p.tenor)
    (h1 : p.amortType ≠ "straight") (h2 : p.amortType ≠ "bullet")
    (hrm0 : 0 ≤ rM p) (htiny : |rM p| < 1 / 10 ^ 12)
    (hlt : amortStart p < p.tenor) :
    ∀ k : ℕ, (k : ℤ) ≤ amortNper p - 1 →
      pv p * ((amortNper p : ℚ) - (k : ℚ)) / (amortNper p : ℚ)
        ≤ closingBal p ((amortStart p).toNat - 1 + k) := by
  have hA1 := amortStart_pos p hde hg hT
  have hnper := amortNper_pos p hde hg hT
  have hnpos : (0 : ℚ) < (amortNper p : ℚ) := by exact_mod_cast hnper.1
  have hpv := pv_nonneg p hP
  apply window_linear_bound p hP hde hg hT hlt
  intro m o hm1 hm2 ho
  have hw : 0 < amortNper p ∧ amortStart p ≤ m ∧ m ≤ p.tenor :=
    ⟨hnper.1, hm1, le_of_lt hm2⟩
  rw [repayAt_window_annuity p h1 h2 m o hw hA1 (ne_of_lt hm2)]
  have hpmt : annuityPmt p = pv p / (amortNper p : ℚ) := by
    unfold annuityPmt annuityPayment
    rw [if_neg (not_le.2 hnper.1), if_pos htiny]
  have hub : max 0 (annuityPmt p - o * rM p) ≤ pv p / (amortNper p : ℚ) := by
    apply max_le
    · exact div_nonneg hpv (le_of_lt hnpos)
    · rw [hpmt]
      nlinarith [mul_nonneg ho hrm0]
  linarith

/-- The bullet policy's window balance is the constant `pv` before the
tenor month. -/
lemma window_const_bullet (p : SanParams)
    (hde : 0 ≤ p.drawEnd) (hg : 0 ≤ p.gracePrin) (hT : 1 ≤ p.tenor)
    (hpol : p.amortType = "bullet") (hlt : amortStart p < p.tenor) :
    ∀ k : ℕ, (k : ℤ) ≤ amortNper p - 1 →
      closingBal p ((amortStart p).toNat - 1 + k) = pv p := by
  have hA1 := amortStart_pos p hde hg hT
  have ha : ((amortStart p).toNat : ℤ) = amortStart p := Int.toNat_of_nonneg (by omega)
  have hnper := amortNper_pos p hde hg hT
  intro k
  induction k with
  | zero =>
    intro _
    rw [Nat.add_zero, closingBal_before_window p hde hg hT]
  | succ k ih =>
    intro hk1
    have hk : (k : ℤ) ≤ amortNper p - 1 := by push_cast at hk1 ⊢; omega
    have ihb := ih hk
    have hmonth : ((((amortStart p).toNat - 1 + k : ℕ) : ℤ) + 1) = amortStart p + k := by
      push_cast
      omega
    have hdraw : drawAt p ((((amortStart p).toNat - 1 + k : ℕ) : ℤ) + 1) = 0 := by
      rw [hmonth]
      exact drawAt_window_zero p hg hlt _ (by omega)
    have hw : 0 < amortNper p ∧ amortStart p ≤ amortStart p + k
        ∧ amortStart p + k ≤ p.tenor := ⟨hnper.1, by omega, by omega⟩
    show closingBal p (((amortStart p).toNat - 1 + k) + 1) = pv p
    rw [closingBal_step, hdraw, hmonth,
      repayAt_window_bullet p hpol _ _ hw (by omega), ihb]
    ring

/-- With a genuine positive rate the annuity payment satisfies
`pmt * (R^n - 1) = pv * r * R^n` where `R = 1 + r` and `n` the window
length. -/
lemma annuityPmt_mul_D (p : SanParams) (hnpos : 0 < amortNper p)
    (hrm0 : 0 ≤ rM p) (hbig : ¬ |rM p| < 1 / 10 ^ 12) :
    annuityPmt p * ((1 + rM p) ^ (amortNper p).toNat - 1)
      = pv p * rM p * (1 + rM p) ^ (amortNper p).toNat := by
  have hrpos : 0 < rM p := by
    rcases eq_or_lt_of_le hrm0 with h | h
    · exfalso
      apply hbig
      rw [← h]
      norm_num
    · exact h
  have hR1 : (1 : ℚ) < 1 + rM p := by linarith
  have hn0 : (amortNper p).toNat ≠ 0 := by omega
  have hRn1 : 1 < (1 + rM p) ^ (amortNper p).toNat := one_lt_pow hR1 hn0
  have hRn0 : ((1 + rM p) ^ (amortNper p).toNat : ℚ) ≠ 0 := by positivity
  have hinv1 : ((1 + rM p) ^ (amortNper p).toNat : ℚ)⁻¹ < 1 := inv_lt_one hRn1
  have hb0 : (1 - ((1 + rM p) ^ (amortNper p).toNat : ℚ)⁻¹) ≠ 0 :=
    ne_of_gt (by linarith)
  unfold annuityPmt annuityPayment
  rw [if_neg (not_le.2 hnpos), if_neg hbig]
  have hzp : ((1 + rM p) : ℚ) ^ (-amortNper p)
      = (((1 + rM p) : ℚ) ^ (amortNper p).toNat)⁻¹ := by
    rw [zpow_neg]
    congr 1
    rw [← zpow_natCast]
    congr 1
    omega
  rw [hzp]
  have hD0 : ((1 + rM p) ^ (amortNper p).toNat - 1 : ℚ) ≠ 0 := ne_of_gt (by linarith)
  have key : (1 - ((1 + rM p) ^ (amortNper p).toNat : ℚ)⁻¹)
      = ((1 + rM p) ^ (amortNper p).toNat - 1) / (1 + rM p) ^ (amortNper p).toNat := by
    field_simp
  rw [key, div_div_eq_mul_div, div_mul_cancel₀ _ hD0]

/-- Exact closed form of the annuity window balance with a genuine positive
rate: after `k` window steps, `balance * (R^n - 1) = pv * (R^n - R^k)`. -/
lemma window_exact_annuity (p : SanParams) (hP : 0 ≤ p.principal)
    (hde : 0 ≤ p.drawEnd) (hg : 0 ≤ p.gracePrin) (hT : 1 ≤ p.tenor)
    (h1 : p.amortType ≠ "straight") (h2 : p.amortType ≠ "bullet")
    (hrm0 : 0 ≤ rM p) (hbig : ¬ |rM p| < 1 / 10 ^ 12)
    (hlt : amortStart p < p.tenor) :
    ∀ k : ℕ, (k : ℤ) ≤ amortNper p - 1 →
      closingBal p ((amortStart p).toNat - 1 + k)
          * ((1 + rM p) ^ (amortNper p).toNat - 1)
        = pv p * ((1 + rM p) ^ (amortNper p).toNat - (1 + rM p) ^ k) := by
  have hA1 := amortStart_pos p hde hg hT
  have ha : ((amortStart p).toNat : ℤ) = amortStart p := Int.toNat_of_nonneg (by omega)
  have hnper := amortNper_pos p hde hg hT
  have hrpos : 0 < rM p := by
    rcases eq_or_lt_of_le hrm0 with h | h
    · exfalso
      apply hbig
      rw [← h]
      norm_num
    · exact h
  have hR1 : (1 : ℚ) < 1 + rM p := by linarith
  have hn0 : (amortNper p).toNat ≠ 0 := by omega
  have hRn1 : 1 < (1 + rM p) ^ (amortNper p).toNat := one_lt_pow hR1 hn0
  have hDpos : (0 : ℚ) < (1 + rM p) ^ (amortNper p).toNat - 1 := by linarith
  have hpv := pv_nonneg p hP
  have hpmtD := annuityPmt_mul_D p hnper.1 hrm0 hbig
  intro k
  induction k with
  | zero =>
    intro _
    rw [Nat.add_zero, closingBal_before_window p hde hg hT, pow_zero]
  | succ k ih =>
    intro hk1
    have hk : (k : ℤ) ≤ amortNper p - 1 := by push_cast at hk1 ⊢; omega
    have ihb := ih hk
    have hmonth : ((((amortStart p).toNat - 1 + k : ℕ) : ℤ) + 1) = amortStart p + k := by
      push_cast
      omega
    have hdraw : drawAt p ((((amortStart p).toNat - 1 + k : ℕ) : ℤ) + 1) = 0 := by
      rw [hmonth]
      exact drawAt_window_zero p hg hlt _ (by omega)
    have hw : 0 < amortNper p ∧ amortStart p ≤ amortStart p + k
        ∧ amortStart p + k ≤ p.tenor := ⟨hnper.1, by omega, by omega⟩
    have hrepay := repayAt_window_annuity p h1 h2 (amortStart p + k)
      (closingBal p ((amortStart p).toNat - 1 + k)) hw hA1 (by omega)
    have hx : annuityPmt p
        - closingBal p ((amortStart p).toNat - 1 + k) * rM p
        = pv p * rM p * (1 + rM p) ^ k
          / ((1 + rM p) ^ (amortNper p).toNat - 1) := by
      apply eq_div_of_mul_eq (ne_of_gt hDpos)
      linear_combination hpmtD - rM p * ihb
    have hfloor : 0 ≤ annuityPmt p
        - closingBal p ((amortStart p).toNat - 1 + k) * rM p := by
      rw [hx]
      positivity
    show closingBal p (((amortStart p).toNat - 1 + k) + 1)
        * ((1 + rM p) ^ (amortNper p).toNat - 1) = _
    rw [closingBal_step, hdraw, hmonth, hrepay, max_eq_right hfloor]
    linear_combination (1 + rM p) * ihb - hpmtD

/-- The opening balance of the tenor month is nonnegative for every policy,
given nonnegative principal and rate and the sanitizer's clamps. -/
lemma opening_tenor_nonneg (p : SanParams) (hP : 0 ≤ p.principal)
    (hR : 0 ≤ p.ratePct) (hT : 1 ≤ p.tenor) (hde : 0 ≤ p.drawEnd)
    (hg : 0 ≤ p.gracePrin) : 0 ≤ closingBal p (p.tenor.toNat - 1) := by
  have hA1 := amortStart_pos p hde hg hT
  have hAT := amortStart_le_tenor p
  have ha : ((amortStart p).toNat : ℤ) = amortStart p := Int.toNat_of_nonneg (by omega)
  have ht : ((p.tenor.toNat : ℕ) : ℤ) = p.tenor := Int.toNat_of_nonneg (by omega)
  have hnper := amortNper_pos p hde hg hT
  have hrm0 : 0 ≤ rM p := by
    unfold rM
    positivity
  by_cases hAt : amortStart p = p.tenor
  · rw [closingBal_eq_preBal p _ (by push_cast; omega)]
    exact preBal_nonneg p hP _
  · have hlt : amortStart p < p.tenor := lt_of_le_of_ne hAT hAt
    have hidx : p.tenor.toNat - 1
        = (amortStart p).toNat - 1 + ((amortNper p).toNat - 1) := by omega
    have hkb : (((amortNper p).toNat - 1 : ℕ) : ℤ) ≤ amortNper p - 1 := by
      push_cast
      omega
    rw [hidx]
    by_cases hstr : p.amortType = "straight"
    · refine le_trans ?_ (window_bound_straight p hP hde hg hT hstr hlt _ hkb)
      have h1q : ((((amortNper p).toNat - 1 : ℕ) : ℚ)) ≤ (amortNper p : ℚ) := by
        exact_mod_cast (by omega : (((amortNper p).toNat - 1 : ℕ) : ℤ) ≤ amortNper p)
      exact div_nonneg (mul_nonneg (pv_nonneg p hP) (by linarith))
        (by exact_mod_cast le_of_lt hnper.1)
    · by_cases hbul : p.amortType = "bullet"
      · rw [window_const_bullet p hde hg hT hbul hlt _ hkb]
        exact pv_nonneg p hP
      · rw [closingBal_policy_default p hstr hbul]
        have haq : amortNper ⟨p.principal, p.ratePct, p.tenor, p.drawStart,
            p.drawEnd, p.gracePrin, "annuity"⟩ = amortNper p := rfl
        have hrq : rM ⟨p.principal, p.ratePct, p.tenor, p.drawStart,
            p.drawEnd, p.gracePrin, "annuity"⟩ = rM p := rfl
        have has : amortStart ⟨p.principal, p.ratePct, p.tenor, p.drawStart,
            p.drawEnd, p.gracePrin, "annuity"⟩ = amortStart p := rfl
        by_cases htiny : |rM p| < 1 / 10 ^ 12
        · refine le_trans ?_
            (window_bound_tiny
              ⟨p.principal, p.ratePct, p.tenor, p.drawStart, p.drawEnd,
               p.gracePrin, "annuity"⟩
              hP hde hg hT (show ("annuity" : String) ≠ "straight" from by decide)
              (show ("annuity" : String) ≠ "bullet" from by decide)
              hrm0 htiny hlt _ hkb)
          rw [haq]
          have h1q : ((((amortNper p).toNat - 1 : ℕ) : ℚ)) ≤ (amortNper p : ℚ) := by
            exact_mod_cast (by omega : (((amortNper p).toNat - 1 : ℕ) : ℤ) ≤ amortNper p)
          exact div_nonneg
            (mul_nonneg
              (pv_nonneg ⟨p.principal, p.ratePct, p.tenor, p.drawStart, p.drawEnd,
                p.gracePrin, "annuity"⟩ hP) (by linarith))
            (by exact_mod_cast le_of_lt hnper.1)
        · have hexact := window_exact_annuity
            ⟨p.principal, p.ratePct, p.tenor, p.drawStart, p.drawEnd,
             p.gracePrin, "annuity"⟩
            hP hde hg hT (show ("annuity" : String) ≠ "straight" from by decide)
            (show ("annuity" : String) ≠ "bullet" from by decide)
            hrm0 htiny hlt _ hkb
          rw [haq, hrq, has] at hexact
          have hrpos : 0 < rM p := by
            rcases eq_or_lt_of_le hrm0 with h | h
            · exfalso
              apply htiny
              rw [← h]
              norm_num
            · exact h
          have hR1 : (1 : ℚ) < 1 + rM p := by linarith
          have hn0 : (amortNper p).toNat ≠ 0 := by omega
          have hRn1 : 1 < (1 + rM p) ^ (amortNper p).toNat := one_lt_pow hR1 hn0
          have hDpos : (0 : ℚ) < (1 + rM p) ^ (amortNper p).toNat - 1 := by linarith
          have hpow : (1 + rM p) ^ ((amortNper p).toNat - 1)
              ≤ (1 + rM p) ^ (amortNper p).toNat :=
            pow_le_pow_right (by linarith) (by omega)
          have hrhs : 0 ≤ pv ⟨p.principal, p.ratePct, p.tenor, p.drawStart,
              p.drawEnd, p.gracePrin, "annuity"⟩
              * ((1 + rM p) ^ (amortNper p).toNat
                - (1 + rM p) ^ ((amortNper p).toNat - 1)) :=
            mul_nonneg
              (pv_nonneg ⟨p.principal, p.ratePct, p.tenor, p.drawStart,
                p.drawEnd, p.gracePrin, "annuity"⟩ hP)
              (by linarith)
          nlinarith [hexact, hDpos, hrhs]

/-- C2 counterexample.  A standard (non-revolving, non-insurance) loan row
with `tenor = horizon = 12` but a negative principal: the final plug
`max(0, opening + draw)` cannot repay a negative balance, so the closing
balance at the tenor month is -1200, not 0 — refuting the claim for
arbitrary principals. -/
theorem terminal_clearance_claim_false :
    sanitize rowNegPrin 12 = .ok pNegPrin
  ∧ (1 : ℤ) ≤ pNegPrin.tenor ∧ pNegPrin.tenor ≤ (12 : ℤ)
  ∧ (schedRow pNegPrin 12).closing = -1200
  ∧ ((-1200 : ℚ) ≠ 0) :=
  ⟨by decide, by decide, by decide, by decide, by decide⟩

/-- C2 (corrected).  For every standard loan with nonnegative principal and
nonnegative rate and `1 ≤ tenor ≤ horizon`, the closing balance at the
tenor month is exactly 0, whatever the amortization policy string. -/
theorem terminal_clearance_amended (row : LoanRow) (h : ℕ) (p : SanParams)
    (hs : sanitize row h = .ok p) (hP : 0 ≤ p.principal) (hR : 0 ≤ p.ratePct)
    (hT : 1 ≤ p.tenor) (hTh : p.tenor ≤ (h : ℤ)) :
    (schedRow p p.tenor.toNat).closing = 0 := by
  obtain ⟨-, -, -, hde, -, -, hg⟩ := sanitize_ok_shape row h p hs
  have hopen : 0 ≤ closingBal p (p.tenor.toNat - 1) :=
    opening_tenor_nonneg p hP hR hT hde hg
  have ht : ((p.tenor.toNat : ℕ) : ℤ) = p.tenor := Int.toNat_of_nonneg (by omega)
  show closingBal p (p.tenor.toNat - 1) + drawAt p (p.tenor.toNat : ℤ)
      - repayAt p (p.tenor.toNat : ℤ) (closingBal p (p.tenor.toNat - 1)) = 0
  rw [ht]
  have hw : 0 < amortNper p ∧ amortStart p ≤ p.tenor ∧ p.tenor ≤ p.tenor :=
    ⟨(amortNper_pos p hde hg hT).1, amortStart_le_tenor p, le_refl _⟩
  rw [repayAt_tenor_plug p hw]
  have hx : 0 ≤ closingBal p (p.tenor.toNat - 1) + drawAt p p.tenor :=
    add_nonneg hopen (drawAt_nonneg p hP _)
  rw [max_eq_right hx]
  ring

/-- Witness for C2's amended claim: the spec's example loan clears exactly
at month 12. -/
theorem terminal_clearance_amended_witness :
    (schedRow pEx 12).closing = 0 := by
  have h := terminal_clearance_amended rowEx 12 pEx (by decide) (by decide)
    (by decide) (by decide) (by decide)
  exact h
